import Mathlib

/-!
A shallow embedding of the TLScontact Gmail watcher (Python) core:
the classifier / date / link extraction engine (`app/parser.py`),
the retry / transient-error utilities (`app/utils.py`),
the base64url body decoding (`app/gmail_client.py`) and the poll-cycle
orchestration with dedup storage (`app/watcher.py`, `app/storage.py`).

Python strings are modelled as Lean `String` (ASCII inputs); the external
`dateparser` and `BeautifulSoup` libraries are modelled as oracle
parameters (with concrete models where a claim evaluates them); machine
integers are `Nat`/`Int`.
-/

namespace TlsWatcher

/-! ## String helpers (models of Python string / regex primitives) -/

/-- ASCII lowercase of one character, as Python `str.lower` acts on ASCII. -/
def lowerChar (c : Char) : Char := c.toLower

/-- ASCII lowercase of a string. -/
def lowerStr (s : String) : String := String.mk (s.data.map lowerChar)

/-- `pat` occurs at the head of `l`. -/
def listStartsWith : List Char → List Char → Bool
  | [], _ => true
  | _ :: _, [] => false
  | p :: ps, c :: cs => p == c && listStartsWith ps cs

/-- `pat` occurs somewhere in `l` (Python `pat in l`). -/
def listContainsSub (pat : List Char) : List Char → Bool
  | [] => pat.isEmpty
  | c :: cs => listStartsWith pat (c :: cs) || listContainsSub pat cs

/-- Python `pat in s` (substring containment). -/
def containsSub (pat s : String) : Bool := listContainsSub pat.data s.data

/-- Case-insensitive substring containment (models `re.search` on a fixed
literal word with `re.IGNORECASE`). -/
def containsSubCI (pat s : String) : Bool := containsSub (lowerStr pat) (lowerStr s)

/-- Python `s.startswith(pat)`. -/
def pyStartsWith (pat s : String) : Bool := listStartsWith pat.data s.data

/-- ASCII decimal digit. -/
def isDigitChar (c : Char) : Bool := '0' ≤ c && c ≤ '9'

/-- Regex word character `\w` (ASCII model). -/
def isWordChar (c : Char) : Bool :=
  isDigitChar c || ('a' ≤ c && c ≤ 'z') || ('A' ≤ c && c ≤ 'Z') || c == '_'

/-- Regex whitespace `\s` / Python `str.strip` whitespace (ASCII model). -/
def isSpaceChar (c : Char) : Bool :=
  c == ' ' || c == '\t' || c == '\n' || c == '\r' || c == '\x0b' || c == '\x0c'

/-- Python `str.strip()` (both ends). -/
def pyStrip (s : String) : String :=
  String.mk (((s.data.dropWhile isSpaceChar).reverse.dropWhile isSpaceChar).reverse)

/-- Python `str.lstrip('- ')`: drop leading characters from the set {'-',' '}. -/
def pyLstripDashSpace (s : String) : String :=
  String.mk (s.data.dropWhile (fun c => c == '-' || c == ' '))

/-- Python `s.isdigit()` for ASCII text: nonempty and all decimal digits. -/
def pyIsDigitStr (s : String) : Bool := !s.data.isEmpty && s.data.all isDigitChar

/-- Python `s.split('\n')` (structural; `acc` holds the current segment
reversed). -/
def splitLinesAux : List Char → List Char → List String
  | [], acc => [String.mk acc.reverse]
  | c :: cs, acc =>
    if c == '\n' then String.mk acc.reverse :: splitLinesAux cs []
    else splitLinesAux cs (c :: acc)

/-- Python `s.split('\n')`. -/
def splitLines (s : String) : List String := splitLinesAux s.data []

/-- Python `s.replace(pat, repl)`: all non-overlapping occurrences, left
to right (structural, with fuel bounded by the input length). -/
def pyReplaceAux (pat repl : List Char) : Nat → List Char → List Char
  | 0, cs => cs
  | _ + 1, [] => []
  | fuel + 1, c :: cs =>
    if listStartsWith pat (c :: cs) then
      repl ++ pyReplaceAux pat repl fuel ((c :: cs).drop pat.length)
    else c :: pyReplaceAux pat repl fuel cs

/-- Python `s.replace(pat, repl)` for a nonempty pattern. -/
def pyReplace (pat repl s : String) : String :=
  if pat.data.isEmpty then s
  else String.mk (pyReplaceAux pat.data repl.data s.data.length s.data)

/-! ## The numeric date regex of `app/parser.py`

`DATE_NUMERIC_REGEX = \b([0-3]?\d[\/\-\.\s][01]?\d[\/\-\.\s](?:\d{2}|\d{4}))\b`

A direct matcher for this one pattern, with Python `re` leftmost,
greedy-with-backtracking, non-overlapping `findall` semantics. -/

/-- Separator class `[\/\-\.\s]`. -/
def isDateSep (c : Char) : Bool := c == '/' || c == '-' || c == '.' || isSpaceChar c

/-- Word boundary after a word character: next char absent or non-word. -/
def wordBoundaryAfter : List Char → Bool
  | [] => true
  | c :: _ => !isWordChar c

/-- Year part `(?:\d{2}|\d{4})\b`: two digits first, backtracking to four. -/
def matchYear : List Char → Option (List Char × List Char)
  | a :: b :: rest =>
    if isDigitChar a && isDigitChar b then
      if wordBoundaryAfter rest then some ([a, b], rest)
      else
        match rest with
        | c :: d :: rest2 =>
          if isDigitChar c && isDigitChar d && wordBoundaryAfter rest2 then
            some ([a, b, c, d], rest2)
          else none
        | _ => none
    else none
  | _ => none

/-- Separator then year. -/
def matchSepYear : List Char → Option (List Char × List Char)
  | s :: rest =>
    if isDateSep s then (matchYear rest).map (fun g => (s :: g.1, g.2)) else none
  | [] => none

/-- Month `[01]?\d` (greedy, two digits first) then separator and year. -/
def matchMonthSepYear (cs : List Char) : Option (List Char × List Char) :=
  (match cs with
   | a :: b :: rest =>
     if (a == '0' || a == '1') && isDigitChar b then
       (matchSepYear rest).map (fun g => (a :: b :: g.1, g.2))
     else none
   | _ => none)
  <|>
  (match cs with
   | a :: rest =>
     if isDigitChar a then (matchSepYear rest).map (fun g => (a :: g.1, g.2))
     else none
   | _ => none)

/-- Separator then month-sep-year. -/
def matchSepMonth (cs : List Char) : Option (List Char × List Char) :=
  match cs with
  | s :: rest =>
    if isDateSep s then (matchMonthSepYear rest).map (fun g => (s :: g.1, g.2)) else none
  | [] => none

/-- Day `[0-3]?\d` (greedy, two digits first) then the rest of the pattern. -/
def matchDayRest (cs : List Char) : Option (List Char × List Char) :=
  (match cs with
   | a :: b :: rest =>
     if ('0' ≤ a && a ≤ '3') && isDigitChar b then
       (matchSepMonth rest).map (fun g => (a :: b :: g.1, g.2))
     else none
   | _ => none)
  <|>
  (match cs with
   | a :: rest =>
     if isDigitChar a then (matchSepMonth rest).map (fun g => (a :: g.1, g.2))
     else none
   | _ => none)

/-- `findall` scan: `prevOk` records that a word boundary holds before the
current position (the match starts with a digit, a word character). The
fuel argument bounds the recursion; each step consumes at least one
character, so fuel = input length suffices. -/
def findAllNumAux : Nat → Bool → List Char → List (List Char)
  | 0, _, _ => []
  | _ + 1, _, [] => []
  | fuel + 1, prevOk, c :: cs =>
    match (if prevOk then matchDayRest (c :: cs) else none) with
    | some (g, rest) => g :: findAllNumAux fuel false rest
    | none => findAllNumAux fuel (!isWordChar c) cs

/-- `DATE_NUMERIC_REGEX.findall(text)`. -/
def dateNumericFindall (text : String) : List String :=
  (findAllNumAux text.data.length true text.data).map String.mk

/-! ## Dates and the `dateparser` oracle

`dateparser.parse` is a third-party library; the embedding takes it as an
oracle parameter `String → Option PDate` (the time-of-day component of the
returned `datetime` plays no role in any claim, so a calendar date
suffices). A concrete day-first numeric model instantiates the oracle
where a claim evaluates it on a concrete token. -/

/-- A calendar date (models the date component of a Python `datetime`). -/
structure PDate where
  year : Int
  month : Nat
  day : Nat
  deriving DecidableEq, Repr

/-- The date-extraction result `{'date': ..., 'raw': ...}`. -/
structure DateRaw where
  date : PDate
  raw : String
  deriving DecidableEq, Repr

/-- A `dateparser.parse` oracle: parse a text fragment to a date, `none`
when the library returns `None`. -/
def DPOracle : Type := String → Option PDate

/-- Digits of an ASCII numeral to a `Nat`; `none` if empty or non-digit. -/
def natOfDigits (cs : List Char) : Option Nat :=
  if cs.isEmpty || !cs.all isDigitChar then none
  else some (cs.foldl (fun acc c => acc * 10 + (c.toNat - '0'.toNat)) 0)

/-- Split a character list at date separators. -/
def splitAtSeps (cs : List Char) : List (List Char) :=
  List.foldr
    (fun c acc =>
      if isDateSep c then [] :: acc
      else
        match acc with
        | g :: gs => (c :: g) :: gs
        | [] => [[c]])
    [[]] cs

/-- Model of the third-party `dateparser` library restricted to purely
numeric day/month/year tokens (the only shape the numeric pass feeds it):
day-before-month bias, two-digit years mapped into the 2000s, days 1–31
and months 1–12 accepted. -/
def dpNumericModel (s : String) : Option PDate :=
  match splitAtSeps s.data with
  | [d, m, y] =>
    match natOfDigits d, natOfDigits m, natOfDigits y with
    | some dv, some mv, some yv =>
      if 1 ≤ dv && dv ≤ 31 && 1 ≤ mv && mv ≤ 12 then
        some ⟨if y.length == 2 then (2000 + yv : Int) else (yv : Int), mv, dv⟩
      else none
    | _, _, _ => none
  | _ => none

/-! ## `extract_date` (`app/parser.py` lines 66–113) -/

/-- The numeric pass: first token of the findall list that the oracle
parses, paired with the token as `raw`. -/
def firstNumericParse (dp : DPOracle) : List String → Option DateRaw
  | [] => none
  | t :: ts =>
    match dp t with
    | some d => some ⟨d, t⟩
    | none => firstNumericParse dp ts

/-- One line of the natural-language pass: Python
`line.lstrip('- ').replace('Date:', '').strip()`. -/
def cleanNLLine (line : String) : String :=
  pyStrip (pyReplace "Date:" "" (pyLstripDashSpace line))

/-- The natural-language fallback pass over the split lines: skip blank,
short (< 5 chars) or all-digit lines, clean the line, consult the oracle,
and accept only years within `[currentYear-1, currentYear+2]`. -/
def nlPass (dp : DPOracle) (currentYear : Int) : List String → Option DateRaw
  | [] => none
  | l :: ls =>
    let line := pyStrip l
    if line == "" then nlPass dp currentYear ls
    else if line.data.length < 5 || pyIsDigitStr line then nlPass dp currentYear ls
    else
      match dp (cleanNLLine line) with
      | some d =>
        if currentYear - 1 ≤ d.year && d.year ≤ currentYear + 2 then some ⟨d, line⟩
        else nlPass dp currentYear ls
      | none => nlPass dp currentYear ls

/-- `extract_date(body, subject, snippet)`: numeric pass over
`subject\nsnippet\nbody`, natural-language line pass only when the
numeric pass yields nothing. `dpNum` and `dpNL` are the two
`dateparser.parse` call sites (they use different settings). -/
def extract_date (dpNum dpNL : DPOracle) (currentYear : Int)
    (body : String) (subject : String) (snippet : String) : Option DateRaw :=
  let combined := subject ++ "\n" ++ snippet ++ "\n" ++ body
  match firstNumericParse dpNum (dateNumericFindall combined) with
  | some r => some r
  | none => nlPass dpNL currentYear (splitLines combined)

/-! ## `extract_link` (`app/parser.py` lines 115–157) -/

/-- Characters allowed in the URL regex body `[^\s"<>|)]`. -/
def isUrlChar (c : Char) : Bool :=
  !(isSpaceChar c || c == '"' || c == '<' || c == '>' || c == '|' || c == ')')

/-- Match `https?://[^\s"<>|)]+` (case-insensitive scheme) at the head of
the list; returns the match and the rest. -/
def matchUrlAt (cs : List Char) : Option (List Char × List Char) :=
  match cs with
  | h :: t1 :: t2 :: p :: rest =>
    if lowerChar h == 'h' && lowerChar t1 == 't' && lowerChar t2 == 't' &&
        lowerChar p == 'p' then
      match rest with
      | s :: c1 :: c2 :: c3 :: rest2 =>
        if lowerChar s == 's' && c1 == ':' && c2 == '/' && c3 == '/' then
          let tail := rest2.takeWhile isUrlChar
          if tail.isEmpty then none
          else some ([h, t1, t2, p, s, c1, c2, c3] ++ tail, rest2.drop tail.length)
        else if s == ':' && c1 == '/' && c2 == '/' then
          let after := c3 :: rest2
          let tail := after.takeWhile isUrlChar
          if tail.isEmpty then none
          else some ([h, t1, t2, p, s, c1, c2] ++ tail, after.drop tail.length)
        else none
      | _ => none
    else none
  | _ => none

/-- Non-overlapping leftmost `findall` for the URL regex. -/
def findUrlsAux : Nat → List Char → List (List Char)
  | 0, _ => []
  | _ + 1, [] => []
  | fuel + 1, c :: cs =>
    match matchUrlAt (c :: cs) with
    | some (m, rest) => m :: findUrlsAux fuel rest
    | none => findUrlsAux fuel cs

/-- `re.findall(r'https?://[^\s"<>|)]+', body)`. -/
def findUrls (body : String) : List String :=
  (findUrlsAux body.data.length body.data).map String.mk

/-- `re.sub(r'[.!?,;:]+$', '', url)`: strip trailing punctuation. -/
def stripTrailingPunct (s : String) : String :=
  String.mk ((s.data.reverse.dropWhile
    (fun c => c == '.' || c == '!' || c == '?' || c == ',' || c == ';' || c == ':')).reverse)

/-- The preference test `re.search(r'tlscontact|confirm', link, re.IGNORECASE)`. -/
def tlsLinkHit (l : String) : Bool :=
  containsSubCI "tlscontact" l || containsSubCI "confirm" l

/-- The plain-text fallback of `extract_link`: scan for URL-shaped
substrings, strip trailing punctuation, prefer a tlscontact/confirm hit,
else the first match, else `none`. -/
def plainTextLinkScan (body : String) : Option String :=
  match findUrls body with
  | [] => none
  | m :: ms =>
    let cleaned := (m :: ms).map stripTrailingPunct
    match cleaned.find? tlsLinkHit with
    | some l => some l
    | none => cleaned.head?

/-- A `BeautifulSoup` oracle: the list of `href` attribute values of the
`<a href=...>` tags of the body, or `none` when parsing raises. -/
def SoupOracle : Type := String → Option (List String)

/-- `extract_link(body)`: empty body short-circuits to `none`; otherwise
collect hrefs via the soup oracle, keep those starting with `http`,
prefer a tlscontact/confirm hit, else the first; when the parse raises or
collects nothing, fall back to the plain-text scan. -/
def extract_link (soup : SoupOracle) (body : String) : Option String :=
  if body == "" then none
  else
    match soup body with
    | some hrefs =>
      let links := hrefs.filter (fun h => pyStartsWith "http" h)
      match links.find? tlsLinkHit with
      | some l => some l
      | none =>
        match links with
        | l :: _ => some l
        | [] => plainTextLinkScan body
    | none => plainTextLinkScan body

/-! ## `parse_message` (`app/parser.py` lines 20–64) -/

/-- A fetched mail message (`RawMessage` of the spec; the fields
`parse_message` reads). `from` is a Lean keyword, hence `fromAddr`. -/
structure RawMessage where
  id : String
  fromAddr : String
  subject : String
  snippet : String
  body : String
  labelIds : List String
  deriving DecidableEq, Repr

/-- The classification result dictionary built by `parse_message`.
`isTls` is the spec's `isMatch`, `parsed` the spec's `dateFound`; in the
Python dict the `labels` key is absent on a non-match, modelled as `[]`. -/
structure ParseResult where
  isTls : Bool
  parsed : Bool
  date : Option PDate
  dateRaw : Option String
  link : Option String
  fromAddr : String
  subject : String
  snippet : String
  rawBody : String
  labels : List String
  deriving DecidableEq, Repr

/-- `TLS_DOMAIN_REGEX.search(from)`: the sender contains one of the
organization's domain markers, case-insensitively. -/
def isTlsDomain (fromAddr : String) : Bool :=
  containsSubCI "@tlscontact." fromAddr ||
  containsSubCI "@tls-contact." fromAddr ||
  containsSubCI "@tlsvisa." fromAddr

/-- The inline keyword search of `parse_message`
(`re.search(r'rendez-?vous|rdv|visa|tlscontact|tls-contact', text, re.IGNORECASE)`);
`rendez-?vous` matches both the hyphenated and the fused spelling. -/
def hasKeyword (text : String) : Bool :=
  containsSubCI "rendez-vous" text || containsSubCI "rendezvous" text ||
  containsSubCI "rdv" text || containsSubCI "visa" text ||
  containsSubCI "tlscontact" text || containsSubCI "tls-contact" text

/-- `parse_message(message)`: domain-or-keyword match test, then (only on
a match) date extraction and link extraction. -/
def parse_message (dpNum dpNL : DPOracle) (currentYear : Int) (soup : SoupOracle)
    (message : RawMessage) : ParseResult :=
  let base : ParseResult :=
    { isTls := false, parsed := false, date := none, dateRaw := none, link := none,
      fromAddr := message.fromAddr, subject := message.subject,
      snippet := message.snippet, rawBody := message.body, labels := [] }
  let textToSearch := message.subject ++ " " ++ message.snippet ++ " " ++ message.body
  let isTls := isTlsDomain message.fromAddr || hasKeyword textToSearch
  if !isTls then base
  else
    let withLabels := { base with isTls := true, labels := message.labelIds }
    let afterDate :=
      match extract_date dpNum dpNL currentYear message.body message.subject
          message.snippet with
      | some e =>
        { withLabels with parsed := true, date := some e.date, dateRaw := some e.raw }
      | none => withLabels
    { afterDate with link := extract_link soup message.body }

/-! ## `app/utils.py`: transient-error classification and retry/backoff -/

/-- A Python exception as the utilities observe it: its string rendering
and, when it is an HTTP error carrying a response, the status code
(`hasattr(error, 'response') and hasattr(error.response, 'status_code')`). -/
structure PError where
  msg : String
  status : Option Nat
  deriving DecidableEq, Repr

/-- The transient keyword list of `is_transient_error`. -/
def transientKeywords : List String :=
  ["timeout", "network", "connection reset", "socket hang up",
   "econnrefused", "enotfound", "etimedout", "econnreset"]

/-- The retryable HTTP status codes of `is_transient_error`. -/
def transientStatuses : List Nat := [429, 500, 502, 503, 504]

/-- `is_transient_error(error)`: a transient keyword occurs in the
lowercased message, or the attached HTTP status is retryable. -/
def is_transient_error (e : PError) : Bool :=
  let m := lowerStr e.msg
  if transientKeywords.any (fun k => containsSub k m) then true
  else
    match e.status with
    | some s => transientStatuses.contains s
    | none => false

/-- The outcome of `retry_with_backoff`: final result, the sleeps
performed (in ms, in order) and the number of invocations of `fn`. -/
structure RetryOutcome (α : Type) where
  result : Except PError α
  sleeps : List Nat
  calls : Nat
  deriving Repr

/-- The retry loop body: `fn` is the wrapped operation, indexed by the
attempt number (each invocation may behave differently); `k` counts the
retries still allowed (`k = 0` models `attempt == max_retries`). On
failure with retries left and a retryable error, sleep `delay` and go
again with `min(delay * factor, max_delay)`. -/
def retryGo {α : Type} (fn : Nat → Except PError α) (shouldRetry : PError → Bool)
    (factor maxDelay : Nat) : Nat → Nat → Nat → RetryOutcome α
  | attempt, 0, _ =>
    match fn attempt with
    | .ok a => ⟨.ok a, [], 1⟩
    | .error e => ⟨.error e, [], 1⟩
  | attempt, k + 1, delay =>
    match fn attempt with
    | .ok a => ⟨.ok a, [], 1⟩
    | .error e =>
      if !shouldRetry e then ⟨.error e, [], 1⟩
      else
        let rest := retryGo fn shouldRetry factor maxDelay (attempt + 1) k
          (min (delay * factor) maxDelay)
        ⟨rest.result, delay :: rest.sleeps, rest.calls + 1⟩

/-- `retry_with_backoff(fn, max_retries, initial_delay, max_delay,
backoff_factor, should_retry)`. -/
def retry_with_backoff {α : Type} (fn : Nat → Except PError α) (maxRetries : Nat)
    (initialDelay maxDelay factor : Nat) (shouldRetry : PError → Bool) :
    RetryOutcome α :=
  retryGo fn shouldRetry factor maxDelay 0 maxRetries initialDelay

/-- The sleeps of one run form an exponential-backoff chain from `d`:
each wait equals the current delay, the next delay is
`min(delay * factor, maxDelay)`. -/
def isBackoffChain (factor maxDelay : Nat) : Nat → List Nat → Prop
  | _, [] => True
  | d, s :: rest => s = d ∧ isBackoffChain factor maxDelay (min (d * factor) maxDelay) rest

/-! ## `decode_base64url` (`app/gmail_client.py` lines 160–169) -/

/-- Value of a base64url alphabet character. -/
def b64Val (c : Char) : Option Nat :=
  if 'A' ≤ c && c ≤ 'Z' then some (c.toNat - 'A'.toNat)
  else if 'a' ≤ c && c ≤ 'z' then some (c.toNat - 'a'.toNat + 26)
  else if '0' ≤ c && c ≤ '9' then some (c.toNat - '0'.toNat + 52)
  else if c == '-' then some 62
  else if c == '_' then some 63
  else none

/-- Decode a list of 6-bit values into bytes; a dangling single value is
the error the Python `binascii` layer raises as "Invalid padding". -/
def b64Groups : List Nat → Except String (List Nat)
  | [] => .ok []
  | [_] => .error "Invalid padding"
  | [a, b] => .ok [(a * 4 + b / 16) % 256]
  | [a, b, c] => .ok [(a * 4 + b / 16) % 256, (b % 16 * 16 + c / 4) % 256]
  | a :: b :: c :: d :: rest =>
    (b64Groups rest).map
      (fun tail =>
        (a * 4 + b / 16) % 256 :: (b % 16 * 16 + c / 4) % 256 ::
          (c % 4 * 64 + d) % 256 :: tail)

/-- Model of the standard library's `base64.urlsafe_b64decode` with
`validate=False`: data after the first `=` is padding, characters outside
the alphabet are discarded, then 4-value groups decode to 3 bytes and a
dangling single value errors. -/
def urlsafeB64decode (s : String) : Except String (List Nat) :=
  b64Groups ((s.data.takeWhile (fun c => c != '=')).filterMap b64Val)

/-- Model of `bytes.decode('utf-8', errors='replace')`: total; ASCII
bytes map to themselves, anything else to the replacement character, so
this layer never fails (which is all the claims use). -/
def bytesToStr (bs : List Nat) : String :=
  String.mk (bs.map (fun b => if b < 128 then Char.ofNat b else '�'))

/-- The padding Python appends: `'=' * (4 - len(data) % 4)`. -/
def b64Padding (data : String) : String :=
  String.mk (List.replicate (4 - data.data.length % 4) '=')

/-- `decode_base64url(data)`: empty input short-circuits to `''`; a
decode failure is caught and yields `''`. -/
def decode_base64url (data : String) : String :=
  if data == "" then ""
  else
    match urlsafeB64decode (data ++ b64Padding data) with
    | .ok bytes => bytesToStr bytes
    | .error _ => ""

/-! ## `app/storage.py` and `app/watcher.py`: dedup store and poll cycle

The SQLite store is a persistent set of processed message ids
(`INSERT OR IGNORE` with a timestamp; the timestamp feeds only the purge,
which no claim touches), modelled as a list of ids. The Gmail fetch and
the Telegram send are external calls that can raise; they are modelled as
`Except`-valued functions of the message id. -/

/-- `SqliteStorage.has_processed`. -/
def has_processed (store : List String) (id : String) : Bool := store.contains id

/-- `SqliteStorage.mark_processed` (`INSERT OR IGNORE`: idempotent,
first-write-wins). -/
def mark_processed (store : List String) (id : String) : List String :=
  if store.contains id then store else id :: store

/-- The external collaborators of one poll cycle: fetching the full
message (`get_message`) and sending the notification
(`send_appointment_notification`), each of which may raise. Formatting
(`format_for_telegram`) is pure, so a send failure subsumes the whole
format-and-send step. -/
structure CycleEnv where
  fetch : String → Except String RawMessage
  send : String → Except String Unit

/-- The cycle statistics dictionary (`stats` of `run_poll_cycle`).
Errors are `(messageId, error)` pairs in order of occurrence. -/
structure PollStats where
  checked : Nat
  new : Nat
  processed : Nat
  notified : Nat
  errors : List (String × String)
  deriving DecidableEq, Repr

/-- The in-cycle mutable state: the dedup store, the per-cycle send
counter `sent_count` and the statistics. -/
structure CycleState where
  store : List String
  sentCount : Nat
  stats : PollStats
  deriving DecidableEq, Repr

/-- The per-message body of the loop in `run_poll_cycle` (lines 63–113):
dedup check, fetch, classify, cap check, send, mark; any fetch/send
failure is recorded in the error list, leaves the id unmarked and lets
the loop continue. -/
def process_one (dpNum dpNL : DPOracle) (currentYear : Int) (soup : SoupOracle)
    (env : CycleEnv) (maxSends : Nat) (st : CycleState) (id : String) : CycleState :=
  if has_processed st.store id then
    { st with stats := { st.stats with processed := st.stats.processed + 1 } }
  else
    let st1 := { st with stats := { st.stats with new := st.stats.new + 1 } }
    match env.fetch id with
    | .error e =>
      { st1 with stats := { st1.stats with errors := st1.stats.errors ++ [(id, e)] } }
    | .ok m =>
      let parsed := parse_message dpNum dpNL currentYear soup m
      if !parsed.isTls then
        { st1 with store := mark_processed st1.store id }
      else if maxSends ≤ st1.sentCount then
        { st1 with store := mark_processed st1.store id }
      else
        match env.send id with
        | .error e =>
          { st1 with stats := { st1.stats with errors := st1.stats.errors ++ [(id, e)] } }
        | .ok _ =>
          { st1 with
            store := mark_processed st1.store id,
            sentCount := st1.sentCount + 1,
            stats := { st1.stats with notified := st1.stats.notified + 1 } }

/-- `run_poll_cycle` after successful initialization: `checked` is the
number of listed ids, then the sequential per-message loop. Returns the
final cycle state (the Python function returns `stats`; the store is the
persistent side effect). -/
def run_poll_cycle (dpNum dpNL : DPOracle) (currentYear : Int) (soup : SoupOracle)
    (env : CycleEnv) (maxSends : Nat) (msgs : List String) (store0 : List String) :
    CycleState :=
  msgs.foldl (process_one dpNum dpNL currentYear soup env maxSends)
    ⟨store0, 0, ⟨msgs.length, 0, 0, 0, []⟩⟩

/-! ## Helper lemmas -/

/-- If some token of the list parses, the numeric pass returns the first
such token with its parse. -/
theorem firstNumericParse_of_mem (dp : DPOracle) :
    ∀ l : List String, (∃ t ∈ l, (dp t).isSome) →
      ∃ t d, t ∈ l ∧ dp t = some d ∧ firstNumericParse dp l = some ⟨d, t⟩ := by
  intro l
  induction l with
  | nil => rintro ⟨t, ht, _⟩; simp at ht
  | cons a as ih =>
    intro h
    cases hda : dp a with
    | some d =>
      exact ⟨a, d, List.mem_cons_self a as, hda, by simp [firstNumericParse, hda]⟩
    | none =>
      obtain ⟨t, ht, hts⟩ := h
      rcases List.mem_cons.mp ht with rfl | htas
      · rw [hda] at hts; simp at hts
      · obtain ⟨t2, d2, ht2, hd2, hfp⟩ := ih ⟨t, htas, hts⟩
        exact ⟨t2, d2, List.mem_cons_of_mem a ht2, hd2,
          by simp [firstNumericParse, hda, hfp]⟩

/-- `parse_message` computes `isTls` as the domain-or-keyword test on
`subject snippet body` joined by spaces. -/
theorem parse_message_isTls (dpNum dpNL : DPOracle) (cy : Int) (soup : SoupOracle)
    (m : RawMessage) :
    (parse_message dpNum dpNL cy soup m).isTls
      = (isTlsDomain m.fromAddr
          || hasKeyword (m.subject ++ " " ++ m.snippet ++ " " ++ m.body)) := by
  unfold parse_message
  cases hb : isTlsDomain m.fromAddr
      || hasKeyword (m.subject ++ " " ++ m.snippet ++ " " ++ m.body) with
  | false => simp [hb]
  | true =>
    simp only [hb, Bool.not_true]
    cases hx : extract_date dpNum dpNL cy m.body m.subject m.snippet <;> simp [hx]

/-- On a non-match, `parse_message` returns the initial result dictionary
(falsy flags, all extraction fields `None`). -/
theorem parse_message_of_not_isTls (dpNum dpNL : DPOracle) (cy : Int) (soup : SoupOracle)
    (m : RawMessage)
    (hb : (isTlsDomain m.fromAddr
        || hasKeyword (m.subject ++ " " ++ m.snippet ++ " " ++ m.body)) = false) :
    parse_message dpNum dpNL cy soup m =
      { isTls := false, parsed := false, date := none, dateRaw := none, link := none,
        fromAddr := m.fromAddr, subject := m.subject, snippet := m.snippet,
        rawBody := m.body, labels := [] } := by
  unfold parse_message
  simp [hb]

/-! ## Claim C1 -/

/-- C1 counterexample: the message
`from = "news@example.com"`, `subject = "Your appointment confirmation"`
has a subject+snippet+body text containing the keyword-set terms
"appointment" and "confirmation" and a non-matching sender, yet
`parse_message` sets `isTls = false` — the inline keyword search of the
code (`rendez-?vous|rdv|visa|tlscontact|tls-contact`) contains neither
"appointment" nor "confirmation", contradicting the claimed keyword set. -/
theorem tls_C1_counterexample :
    (parse_message (fun _ => none) (fun _ => none) 2026 (fun _ => none)
        ⟨"m1", "news@example.com", "Your appointment confirmation", "", "", []⟩).isTls
        = false
    ∧ containsSubCI "appointment"
        ("Your appointment confirmation" ++ " " ++ "" ++ " " ++ "") = true
    ∧ containsSubCI "confirmation"
        ("Your appointment confirmation" ++ " " ++ "" ++ " " ++ "") = true := by
  decide

/-- C1 (amended): `parse_message` sets `isTls` to true iff the sender
matches a known domain variant case-insensitively or the space-joined
subject/snippet/body contains a term of the keyword set
{rendez-vous, rendezvous, rdv, visa, tlscontact, tls-contact}
(case-insensitive substring; "appointment"/"confirmation" are NOT in the
set); and whenever `isTls` is false the result has `parsed = false`,
`date = none`, `dateRaw = none`, `link = none`, and neither date
extraction nor link extraction is invoked (the result is independent of
the date-parse oracles, the current year and the soup oracle). -/
theorem tls_C1_match_test (dpNum dpNL dpNum2 dpNL2 : DPOracle) (cy cy2 : Int)
    (soup soup2 : SoupOracle) (m : RawMessage) :
    (parse_message dpNum dpNL cy soup m).isTls
      = (isTlsDomain m.fromAddr
          || hasKeyword (m.subject ++ " " ++ m.snippet ++ " " ++ m.body))
    ∧ ((parse_message dpNum dpNL cy soup m).isTls = false →
        parse_message dpNum dpNL cy soup m =
          { isTls := false, parsed := false, date := none, dateRaw := none,
            link := none, fromAddr := m.fromAddr, subject := m.subject,
            snippet := m.snippet, rawBody := m.body, labels := [] }
        ∧ parse_message dpNum2 dpNL2 cy2 soup2 m = parse_message dpNum dpNL cy soup m) := by
  refine ⟨parse_message_isTls dpNum dpNL cy soup m, fun hfalse => ?_⟩
  have hb : (isTlsDomain m.fromAddr
      || hasKeyword (m.subject ++ " " ++ m.snippet ++ " " ++ m.body)) = false := by
    rw [← parse_message_isTls dpNum dpNL cy soup m]; exact hfalse
  rw [parse_message_of_not_isTls dpNum dpNL cy soup m hb,
    parse_message_of_not_isTls dpNum2 dpNL2 cy2 soup2 m hb]
  exact ⟨rfl, rfl⟩

/-- C1 witness: the amended theorem evaluated at a keyword-free,
non-matching message ("Monthly newsletter" from `example.com`). -/
theorem tls_C1_match_test_witness :
    (parse_message (fun _ => none) (fun _ => none) 2026 (fun _ => none)
        ⟨"m2", "noreply@example.com", "Newsletter", "Monthly updates",
         "Generic content", []⟩).isTls
      = (isTlsDomain "noreply@example.com"
          || hasKeyword ("Newsletter" ++ " " ++ "Monthly updates" ++ " " ++ "Generic content"))
    ∧ parse_message (fun _ => none) (fun _ => none) 2026 (fun _ => none)
        ⟨"m2", "noreply@example.com", "Newsletter", "Monthly updates",
         "Generic content", []⟩ =
        { isTls := false, parsed := false, date := none, dateRaw := none,
          link := none, fromAddr := "noreply@example.com", subject := "Newsletter",
          snippet := "Monthly updates", rawBody := "Generic content", labels := [] } := by
  have h := tls_C1_match_test (fun _ => none) (fun _ => none) (fun _ => some ⟨2026, 1, 1⟩)
    (fun _ => none) 2026 2000 (fun _ => none) (fun _ => some [])
    ⟨"m2", "noreply@example.com", "Newsletter", "Monthly updates", "Generic content", []⟩
  exact ⟨h.1, (h.2 (by decide)).1⟩

/-! ## Claim C5 -/

/-- C5: whenever the numeric pass of `extract_date` finds at least one
numeric token that the numeric `dateparser` oracle parses, the returned
result is the first such token's parse paired with the matched substring
as `raw`, and the natural-language pass is never consulted (the result is
independent of the natural-language oracle and the current year). -/
theorem tls_C5_numeric_priority (dpNum dpNL dpNL2 : DPOracle) (cy cy2 : Int)
    (body subject snippet : String)
    (h : ∃ t ∈ dateNumericFindall (subject ++ "\n" ++ snippet ++ "\n" ++ body),
      (dpNum t).isSome) :
    (∃ t d, t ∈ dateNumericFindall (subject ++ "\n" ++ snippet ++ "\n" ++ body)
        ∧ dpNum t = some d
        ∧ extract_date dpNum dpNL cy body subject snippet = some ⟨d, t⟩)
    ∧ extract_date dpNum dpNL cy body subject snippet
        = extract_date dpNum dpNL2 cy2 body subject snippet := by
  obtain ⟨t, d, ht, hd, hfp⟩ := firstNumericParse_of_mem dpNum _ h
  refine ⟨⟨t, d, ht, hd, ?_⟩, ?_⟩
  · unfold extract_date
    simp [hfp]
  · unfold extract_date
    simp [hfp]

/-- C5 witness: on the text `"RDV: 15/01/2026"` the numeric token parses,
so the result is the numeric one whatever the natural-language oracle
would have said. -/
theorem tls_C5_numeric_priority_witness :
    (∃ t d, t ∈ dateNumericFindall ("RDV" ++ "\n" ++ "" ++ "\n" ++ "le 15/01/2026")
        ∧ dpNumericModel t = some d
        ∧ extract_date dpNumericModel (fun _ => none) 2026 "le 15/01/2026" "RDV" ""
            = some ⟨d, t⟩)
    ∧ extract_date dpNumericModel (fun _ => none) 2026 "le 15/01/2026" "RDV" ""
        = extract_date dpNumericModel (fun _ => some ⟨1999, 12, 31⟩) 1999
            "le 15/01/2026" "RDV" "" := by
  exact tls_C5_numeric_priority dpNumericModel (fun _ => none)
    (fun _ => some ⟨1999, 12, 31⟩) 2026 1999 "le 15/01/2026" "RDV" ""
    ⟨"15/01/2026", by decide, by decide⟩

/-! ## Claim C6 -/

/-- C6: when the markup parse of the body collects hyperlink targets and
at least one collected `href` begins with `http`, `extract_link` returns
the first kept href that case-insensitively contains "tlscontact" or
"confirm" when one exists, and otherwise the first kept href. -/
theorem tls_C6_link_preference (soup : SoupOracle) (body : String) (hrefs : List String)
    (hb : body ≠ "") (hs : soup body = some hrefs)
    (hne : hrefs.filter (fun h => pyStartsWith "http" h) ≠ []) :
    (∀ l, (hrefs.filter (fun h => pyStartsWith "http" h)).find? tlsLinkHit = some l →
        extract_link soup body = some l)
    ∧ ((hrefs.filter (fun h => pyStartsWith "http" h)).find? tlsLinkHit = none →
        extract_link soup body = (hrefs.filter (fun h => pyStartsWith "http" h)).head?) := by
  have hbeq : (body == "") = false := by simp [hb]
  constructor
  · intro l hl
    unfold extract_link
    simp [hbeq, hs, hl]
  · intro hnone
    unfold extract_link
    simp only [hbeq, Bool.false_eq_true, if_false, hs, hnone]
    cases hfil : hrefs.filter (fun h => pyStartsWith "http" h) with
    | nil => exact absurd hfil hne
    | cons a as => simp [hfil]

/-- C6 witness: a body with three anchors of which exactly the second
href contains "confirm" (and "tlscontact"); that href is returned over
the other two. -/
theorem tls_C6_link_preference_witness :
    extract_link
      (fun _ => some ["https://a.example.com/x",
        "https://tlscontact.com/confirm/xyz", "https://b.example.org/y"])
      "<a href=\"https://a.example.com/x\">1</a><a href=\"https://tlscontact.com/confirm/xyz\">2</a><a href=\"https://b.example.org/y\">3</a>"
      = some "https://tlscontact.com/confirm/xyz" := by
  have h := tls_C6_link_preference
    (fun _ => some ["https://a.example.com/x",
      "https://tlscontact.com/confirm/xyz", "https://b.example.org/y"])
    "<a href=\"https://a.example.com/x\">1</a><a href=\"https://tlscontact.com/confirm/xyz\">2</a><a href=\"https://b.example.org/y\">3</a>"
    ["https://a.example.com/x", "https://tlscontact.com/confirm/xyz",
      "https://b.example.org/y"]
    (by decide) rfl (by decide)
  exact h.1 "https://tlscontact.com/confirm/xyz" (by decide)

/-! ## Claim C7 -/

/-- C7: for the message `from = "noreply@tlscontact.com"` whose body
contains the substring "15/01/2026", `parse_message` (with the numeric
`dateparser` oracle instantiated at its concrete day-first model) returns
`isTls = true`, `parsed = true`, the calendar date 2026-01-15 and
`dateRaw = "15/01/2026"`. -/
theorem tls_C7_example :
    (parse_message dpNumericModel (fun _ => none) 2026 (fun _ => some [])
        ⟨"m7", "noreply@tlscontact.com", "Votre rendez-vous TLScontact", "",
         "Date: 15/01/2026", []⟩).isTls = true
    ∧ (parse_message dpNumericModel (fun _ => none) 2026 (fun _ => some [])
        ⟨"m7", "noreply@tlscontact.com", "Votre rendez-vous TLScontact", "",
         "Date: 15/01/2026", []⟩).parsed = true
    ∧ (parse_message dpNumericModel (fun _ => none) 2026 (fun _ => some [])
        ⟨"m7", "noreply@tlscontact.com", "Votre rendez-vous TLScontact", "",
         "Date: 15/01/2026", []⟩).date = some ⟨2026, 1, 15⟩
    ∧ (parse_message dpNumericModel (fun _ => none) 2026 (fun _ => some [])
        ⟨"m7", "noreply@tlscontact.com", "Votre rendez-vous TLScontact", "",
         "Date: 15/01/2026", []⟩).dateRaw = some "15/01/2026" := by
  decide

/-! ## Claim C9 -/

/-- C9: malformed content never fails a message. `decode_base64url` is a
total function that returns the empty string whenever the inner base64
decode errors; `extract_link` is total, degrades to the plain-text URL
scan when the markup parse raises, and returns `none` when on top of that
no URL-shaped substring occurs in the body. -/
theorem tls_C9_malformed_content :
    (∀ data e, urlsafeB64decode (data ++ b64Padding data) = .error e →
        decode_base64url data = "")
    ∧ (∀ (soup : SoupOracle) (body : String), body ≠ "" → soup body = none →
        extract_link soup body = plainTextLinkScan body)
    ∧ (∀ (soup : SoupOracle) (body : String), soup body = none → findUrls body = [] →
        extract_link soup body = none) := by
  refine ⟨?_, ?_, ?_⟩
  · intro data e he
    unfold decode_base64url
    split
    · rfl
    · rw [he]
  · intro soup body hb hnone
    unfold extract_link
    simp [show (body == "") = false from by simp [hb], hnone]
  · intro soup body hnone hurls
    by_cases hb : body = ""
    · subst hb
      unfold extract_link
      simp
    · unfold extract_link
      simp [show (body == "") = false from by simp [hb], hnone,
        plainTextLinkScan, hurls]

/-- C9 witness: the undecodable input `"A"` (one base64 character is a
dangling value) decodes to the empty string, and a body without URLs
under a raising markup parse yields the plain-text scan, namely `none`. -/
theorem tls_C9_malformed_content_witness :
    decode_base64url "A" = ""
    ∧ extract_link (fun _ => none) "hello world, no links"
        = plainTextLinkScan "hello world, no links"
    ∧ extract_link (fun _ => none) "hello world, no links" = none := by
  refine ⟨tls_C9_malformed_content.1 "A" "Invalid padding" rfl,
    tls_C9_malformed_content.2.1 (fun _ => none) "hello world, no links" (by decide) rfl,
    tls_C9_malformed_content.2.2 (fun _ => none) "hello world, no links" rfl (by decide)⟩

/-! ## Claim C8: retry-policy lemmas -/

/-- The retry loop performs at most `k + 1` invocations. -/
theorem retryGo_calls_le {α : Type} (fn : Nat → Except PError α) (sr : PError → Bool)
    (f M : Nat) : ∀ k attempt delay, (retryGo fn sr f M attempt k delay).calls ≤ k + 1 := by
  intro k
  induction k with
  | zero =>
    intro attempt delay
    cases hf : fn attempt <;> simp [retryGo, hf]
  | succ k ih =>
    intro attempt delay
    cases hf : fn attempt with
    | ok a => simp [retryGo, hf]
    | error e =>
      by_cases hsr : sr e
      · simp only [retryGo, hf, hsr, Bool.not_true, Bool.false_eq_true, if_false]
        exact Nat.succ_le_succ (ih _ _)
      · simp [retryGo, hf, hsr]

/-- The sleeps of the retry loop form a backoff chain from the current
delay. -/
theorem retryGo_sleeps_chain {α : Type} (fn : Nat → Except PError α) (sr : PError → Bool)
    (f M : Nat) :
    ∀ k attempt delay, isBackoffChain f M delay (retryGo fn sr f M attempt k delay).sleeps := by
  intro k
  induction k with
  | zero =>
    intro attempt delay
    cases hf : fn attempt <;> simp [retryGo, hf, isBackoffChain]
  | succ k ih =>
    intro attempt delay
    cases hf : fn attempt with
    | ok a => simp [retryGo, hf, isBackoffChain]
    | error e =>
      by_cases hsr : sr e
      · simp only [retryGo, hf, hsr, Bool.not_true, Bool.false_eq_true, if_false]
        exact ⟨rfl, ih _ _⟩
      · simp [retryGo, hf, hsr, isBackoffChain]

/-- A backoff chain started at a delay below the cap stays below the cap. -/
theorem backoffChain_le (f M : Nat) :
    ∀ (l : List Nat) (d : Nat), d ≤ M → isBackoffChain f M d l → ∀ s ∈ l, s ≤ M := by
  intro l
  induction l with
  | nil => intro d _ _ s hs; simp at hs
  | cons a as ih =>
    intro d hd hc s hs
    have hc2 : a = d ∧ isBackoffChain f M (min (d * f) M) as := hc
    rcases List.mem_cons.mp hs with rfl | hmem
    · exact hc2.1 ▸ hd
    · exact ih (min (d * f) M) (Nat.min_le_right _ _) hc2.2 s hmem

/-- `is_transient_error` holds exactly when a transient keyword occurs in
the lowercased message or the attached HTTP status is one of
429/500/502/503/504. -/
theorem is_transient_error_iff (e : PError) :
    is_transient_error e = true ↔
      ((∃ k ∈ transientKeywords, containsSub k (lowerStr e.msg) = true)
        ∨ ∃ s, e.status = some s ∧ s ∈ transientStatuses) := by
  cases hany : transientKeywords.any (fun k => containsSub k (lowerStr e.msg)) with
  | true =>
    exact iff_of_true (by simp [is_transient_error, hany])
      (Or.inl (List.any_eq_true.mp hany))
  | false =>
    have hnk : ∀ k ∈ transientKeywords, ¬containsSub k (lowerStr e.msg) = true := by
      simpa using List.any_eq_false.mp hany
    cases hst : e.status with
    | none =>
      refine iff_of_false (by simp [is_transient_error, hany, hst]) ?_
      rintro (⟨k, hkm, hks⟩ | ⟨s, hsome, _⟩)
      · exact hnk k hkm hks
      · exact Option.noConfusion hsome
    | some s =>
      by_cases hs : s ∈ transientStatuses
      · refine iff_of_true ?_ (Or.inr ⟨s, rfl, hs⟩)
        simp only [is_transient_error, hany, Bool.false_eq_true, if_false, hst]
        exact List.elem_eq_true_of_mem hs
      · refine iff_of_false ?_ ?_
        · simp only [is_transient_error, hany, Bool.false_eq_true, if_false, hst]
          intro hcon
          exact hs (List.mem_of_elem_eq_true hcon)
        · rintro (⟨k, hkm, hks⟩ | ⟨s2, hsome, hmem⟩)
          · exact hnk k hkm hks
          · have hs2 : s2 = s := (Option.some_inj.mp hsome).symm
            exact hs (hs2 ▸ hmem)

/-- C8 counterexample: the error message `"network unreachable"` carries
no HTTP status and matches none of the claim's four condition categories
— no timeout marker (`timeout`/`etimedout`), no connection-reset marker
(`connection reset`/`econnreset`/`socket hang up`), no connection-refused
marker (`econnrefused`) and no DNS-failure marker (`enotfound`) — yet
`is_transient_error` classifies it transient, via the additional
`"network"` keyword of the code; so the classification is not *exactly*
the claimed condition set. -/
theorem tls_C8_counterexample :
    is_transient_error ⟨"network unreachable", none⟩ = true
    ∧ containsSub "timeout" (lowerStr "network unreachable") = false
    ∧ containsSub "etimedout" (lowerStr "network unreachable") = false
    ∧ containsSub "connection reset" (lowerStr "network unreachable") = false
    ∧ containsSub "econnreset" (lowerStr "network unreachable") = false
    ∧ containsSub "socket hang up" (lowerStr "network unreachable") = false
    ∧ containsSub "econnrefused" (lowerStr "network unreachable") = false
    ∧ containsSub "enotfound" (lowerStr "network unreachable") = false := by
  decide

/-- Immediate propagation at any attempt: if the attempts before the
`j`-th all failed retryably and attempt `j` (still within the allowed
budget) fails with a non-retryable error, the loop returns that error
after exactly `j + 1` invocations and the `j` sleeps that preceded the
failing attempt — no sleep follows it. -/
theorem retryGo_propagate {α : Type} (fn : Nat → Except PError α) (sr : PError → Bool)
    (f M : Nat) (e : PError) :
    ∀ (j k attempt delay : Nat), j ≤ k →
      (∀ i < j, ∃ ei, fn (attempt + i) = .error ei ∧ sr ei = true) →
      fn (attempt + j) = .error e → sr e = false →
      (retryGo fn sr f M attempt k delay).result = .error e
      ∧ (retryGo fn sr f M attempt k delay).calls = j + 1
      ∧ (retryGo fn sr f M attempt k delay).sleeps.length = j := by
  intro j
  induction j with
  | zero =>
    intro k attempt delay hj htrans hfj hsr
    rw [Nat.add_zero] at hfj
    cases k with
    | zero => simp [retryGo, hfj]
    | succ k => simp [retryGo, hfj, hsr]
  | succ j ih =>
    intro k attempt delay hj htrans hfj hsr
    cases k with
    | zero => exact absurd hj (by omega)
    | succ k =>
      obtain ⟨e0, he0, hsr0⟩ := htrans 0 (Nat.succ_pos j)
      rw [Nat.add_zero] at he0
      have hrest := ih k (attempt + 1) (min (delay * f) M) (Nat.le_of_succ_le_succ hj)
        (fun i hi => by
          obtain ⟨ei, hei, hsri⟩ := htrans (i + 1) (Nat.succ_lt_succ hi)
          refine ⟨ei, ?_, hsri⟩
          rw [show attempt + 1 + i = attempt + (i + 1) by omega]
          exact hei)
        (by
          rw [show attempt + 1 + j = attempt + (j + 1) by omega]
          exact hfj)
        hsr
      simp only [retryGo, he0, hsr0, Bool.not_true, Bool.false_eq_true, if_false]
      exact ⟨hrest.1, by simp [hrest.2.1], by simp [hrest.2.2]⟩

/-- C8 (amended): `retry_with_backoff` invokes the wrapped operation at
most `max_retries + 1` times; when any attempt fails with an error
classified non-retryable — after any number of earlier retryable
failures — that error propagates immediately: exactly as many
invocations as attempts made, and no backoff sleep after the failing
attempt; the sleeps form an exponential-backoff chain starting at the
initial delay with each subsequent delay `min(delay * factor,
max_delay)`, hence never exceed the maximum delay when the initial delay
respects it; and `is_transient_error` classifies as transient exactly
the errors whose lowercased message contains one of the eight literal
markers `timeout`, `network`, `connection reset`, `socket hang up`,
`econnrefused`, `enotfound`, `etimedout`, `econnreset`, or whose HTTP
status is 429, 500, 502, 503 or 504. -/
theorem tls_C8_retry_policy {α : Type} (fn : Nat → Except PError α)
    (maxRetries initialDelay maxDelay factor : Nat) (sr : PError → Bool) :
    (retry_with_backoff fn maxRetries initialDelay maxDelay factor sr).calls
      ≤ maxRetries + 1
    ∧ (∀ (j : Nat) (e : PError), j ≤ maxRetries →
        (∀ i < j, ∃ ei, fn i = .error ei ∧ sr ei = true) →
        fn j = .error e → sr e = false →
        (retry_with_backoff fn maxRetries initialDelay maxDelay factor sr).result
          = .error e
        ∧ (retry_with_backoff fn maxRetries initialDelay maxDelay factor sr).calls
          = j + 1
        ∧ (retry_with_backoff fn maxRetries initialDelay maxDelay factor sr).sleeps.length
          = j)
    ∧ isBackoffChain factor maxDelay initialDelay
        (retry_with_backoff fn maxRetries initialDelay maxDelay factor sr).sleeps
    ∧ (initialDelay ≤ maxDelay →
        ∀ s ∈ (retry_with_backoff fn maxRetries initialDelay maxDelay factor sr).sleeps,
          s ≤ maxDelay)
    ∧ (∀ e : PError, is_transient_error e = true ↔
        ((∃ k ∈ transientKeywords, containsSub k (lowerStr e.msg) = true)
          ∨ ∃ s, e.status = some s ∧ s ∈ transientStatuses)) := by
  refine ⟨retryGo_calls_le fn sr factor maxDelay maxRetries 0 initialDelay,
    ?_, retryGo_sleeps_chain fn sr factor maxDelay maxRetries 0 initialDelay,
    fun hinit => backoffChain_le factor maxDelay _ initialDelay hinit
      (retryGo_sleeps_chain fn sr factor maxDelay maxRetries 0 initialDelay),
    is_transient_error_iff⟩
  intro j e hj htrans hfj hsr
  exact retryGo_propagate fn sr factor maxDelay e j maxRetries 0 initialDelay hj
    (by simpa using htrans) (by simpa using hfj) hsr

/-- C8 witness: with `max_retries = 3`, base delay 1000 ms, cap
30000 ms, factor 2 and the real `is_transient_error` classifier, an
operation that fails with `"timeout"` on attempts 0 and 1 and with the
non-transient `"invalid credentials"` on attempt 2 makes exactly 3
invocations, returns that error, and sleeps only the 2 backoff waits
that preceded the failing attempt. -/
theorem tls_C8_retry_policy_witness :
    (retry_with_backoff
        (fun i => if i < 2 then (.error ⟨"timeout", none⟩ : Except PError Nat)
          else .error ⟨"invalid credentials", none⟩)
        3 1000 30000 2 is_transient_error).calls ≤ 4
    ∧ ((retry_with_backoff
        (fun i => if i < 2 then (.error ⟨"timeout", none⟩ : Except PError Nat)
          else .error ⟨"invalid credentials", none⟩)
        3 1000 30000 2 is_transient_error).result = .error ⟨"invalid credentials", none⟩
      ∧ (retry_with_backoff
          (fun i => if i < 2 then (.error ⟨"timeout", none⟩ : Except PError Nat)
            else .error ⟨"invalid credentials", none⟩)
          3 1000 30000 2 is_transient_error).calls = 3
      ∧ (retry_with_backoff
          (fun i => if i < 2 then (.error ⟨"timeout", none⟩ : Except PError Nat)
            else .error ⟨"invalid credentials", none⟩)
          3 1000 30000 2 is_transient_error).sleeps.length = 2)
    ∧ isBackoffChain 2 30000 1000
        (retry_with_backoff
          (fun i => if i < 2 then (.error ⟨"timeout", none⟩ : Except PError Nat)
            else .error ⟨"invalid credentials", none⟩)
          3 1000 30000 2 is_transient_error).sleeps
    ∧ (∀ s ∈ (retry_with_backoff
          (fun i => if i < 2 then (.error ⟨"timeout", none⟩ : Except PError Nat)
            else .error ⟨"invalid credentials", none⟩)
          3 1000 30000 2 is_transient_error).sleeps, s ≤ 30000)
    ∧ (is_transient_error ⟨"connection reset by peer", none⟩ = true ↔
        ((∃ k ∈ transientKeywords,
            containsSub k (lowerStr "connection reset by peer") = true)
          ∨ ∃ s, (none : Option Nat) = some s ∧ s ∈ transientStatuses)) := by
  have h := tls_C8_retry_policy
    (fun i => if i < 2 then (.error ⟨"timeout", none⟩ : Except PError Nat)
      else .error ⟨"invalid credentials", none⟩)
    3 1000 30000 2 is_transient_error
  refine ⟨h.1, h.2.1 2 ⟨"invalid credentials", none⟩ (by decide) ?_ rfl (by decide),
    h.2.2.1, h.2.2.2.1 (by decide), h.2.2.2.2 ⟨"connection reset by peer", none⟩⟩
  intro i hi
  refine ⟨⟨"timeout", none⟩, ?_, by decide⟩
  rw [if_pos hi]

/-! ## Poll-cycle step lemmas

One lemma per arm of the per-message state machine
`Unseen → {AlreadyProcessed | NewNonMatch | NewMatchSent |
NewMatchBudgetExceeded | NewMatchError}`. -/

/-- `AlreadyProcessed`: a seen id only increments `processed`. -/
theorem process_one_seen (dpNum dpNL : DPOracle) (cy : Int) (soup : SoupOracle)
    (env : CycleEnv) (maxSends : Nat) (st : CycleState) (id : String)
    (h : has_processed st.store id = true) :
    process_one dpNum dpNL cy soup env maxSends st id
      = { st with stats := { st.stats with processed := st.stats.processed + 1 } } := by
  simp [process_one, h]

/-- Fetch failure: `new` incremented, error recorded, id left unmarked. -/
theorem process_one_fetch_error (dpNum dpNL : DPOracle) (cy : Int) (soup : SoupOracle)
    (env : CycleEnv) (maxSends : Nat) (st : CycleState) (id : String) (e : String)
    (h : has_processed st.store id = false) (hf : env.fetch id = .error e) :
    process_one dpNum dpNL cy soup env maxSends st id
      = { st with
            stats := { st.stats with
              new := st.stats.new + 1,
              errors := st.stats.errors ++ [(id, e)] } } := by
  simp [process_one, h, hf]

/-- `NewNonMatch`: a non-matching unseen message is marked, no
notification. -/
theorem process_one_nonmatch (dpNum dpNL : DPOracle) (cy : Int) (soup : SoupOracle)
    (env : CycleEnv) (maxSends : Nat) (st : CycleState) (id : String) (m : RawMessage)
    (h : has_processed st.store id = false) (hf : env.fetch id = .ok m)
    (ht : (parse_message dpNum dpNL cy soup m).isTls = false) :
    process_one dpNum dpNL cy soup env maxSends st id
      = { st with
            store := mark_processed st.store id,
            stats := { st.stats with new := st.stats.new + 1 } } := by
  simp [process_one, h, hf, ht]

/-- `NewMatchBudgetExceeded`: a matching unseen message hit after the
send cap is marked, no notification. -/
theorem process_one_cap (dpNum dpNL : DPOracle) (cy : Int) (soup : SoupOracle)
    (env : CycleEnv) (maxSends : Nat) (st : CycleState) (id : String) (m : RawMessage)
    (h : has_processed st.store id = false) (hf : env.fetch id = .ok m)
    (ht : (parse_message dpNum dpNL cy soup m).isTls = true)
    (hcap : maxSends ≤ st.sentCount) :
    process_one dpNum dpNL cy soup env maxSends st id
      = { st with
            store := mark_processed st.store id,
            stats := { st.stats with new := st.stats.new + 1 } } := by
  simp [process_one, h, hf, ht, hcap]

/-- `NewMatchError` on send: error recorded, id left unmarked. -/
theorem process_one_send_error (dpNum dpNL : DPOracle) (cy : Int) (soup : SoupOracle)
    (env : CycleEnv) (maxSends : Nat) (st : CycleState) (id : String) (m : RawMessage)
    (e : String)
    (h : has_processed st.store id = false) (hf : env.fetch id = .ok m)
    (ht : (parse_message dpNum dpNL cy soup m).isTls = true)
    (hcap : st.sentCount < maxSends) (hs : env.send id = .error e) :
    process_one dpNum dpNL cy soup env maxSends st id
      = { st with
            stats := { st.stats with
              new := st.stats.new + 1,
              errors := st.stats.errors ++ [(id, e)] } } := by
  simp [process_one, h, hf, ht, Nat.not_le.mpr hcap, hs]

/-- `NewMatchSent`: successful send increments the counter and `notified`
and marks the id afterwards. -/
theorem process_one_sent (dpNum dpNL : DPOracle) (cy : Int) (soup : SoupOracle)
    (env : CycleEnv) (maxSends : Nat) (st : CycleState) (id : String) (m : RawMessage)
    (h : has_processed st.store id = false) (hf : env.fetch id = .ok m)
    (ht : (parse_message dpNum dpNL cy soup m).isTls = true)
    (hcap : st.sentCount < maxSends) (hs : env.send id = .ok ()) :
    process_one dpNum dpNL cy soup env maxSends st id
      = { st with
            store := mark_processed st.store id,
            sentCount := st.sentCount + 1,
            stats := { st.stats with
              new := st.stats.new + 1,
              notified := st.stats.notified + 1 } } := by
  simp [process_one, h, hf, ht, Nat.not_le.mpr hcap, hs]

/-- Marking always leaves the id present (`INSERT OR IGNORE`). -/
theorem has_processed_mark (l : List String) (id : String) :
    has_processed (mark_processed l id) id = true := by
  unfold has_processed mark_processed
  split
  · assumption
  · simp

/-- Each step either leaves the send counter and `notified` unchanged, or
increments both together and only from strictly below the cap. -/
theorem process_one_counters (dpNum dpNL : DPOracle) (cy : Int) (soup : SoupOracle)
    (env : CycleEnv) (maxSends : Nat) (st : CycleState) (id : String) :
    ((process_one dpNum dpNL cy soup env maxSends st id).sentCount = st.sentCount
      ∧ (process_one dpNum dpNL cy soup env maxSends st id).stats.notified
          = st.stats.notified)
    ∨ ((process_one dpNum dpNL cy soup env maxSends st id).sentCount = st.sentCount + 1
      ∧ (process_one dpNum dpNL cy soup env maxSends st id).stats.notified
          = st.stats.notified + 1
      ∧ st.sentCount < maxSends) := by
  cases h : has_processed st.store id with
  | true => rw [process_one_seen dpNum dpNL cy soup env maxSends st id h]; left; exact ⟨rfl, rfl⟩
  | false =>
    cases hf : env.fetch id with
    | error e =>
      rw [process_one_fetch_error dpNum dpNL cy soup env maxSends st id e h hf]
      left; exact ⟨rfl, rfl⟩
    | ok m =>
      cases ht : (parse_message dpNum dpNL cy soup m).isTls with
      | false =>
        rw [process_one_nonmatch dpNum dpNL cy soup env maxSends st id m h hf ht]
        left; exact ⟨rfl, rfl⟩
      | true =>
        by_cases hcap : maxSends ≤ st.sentCount
        · rw [process_one_cap dpNum dpNL cy soup env maxSends st id m h hf ht hcap]
          left; exact ⟨rfl, rfl⟩
        · have hlt := Nat.not_le.mp hcap
          cases hs : env.send id with
          | error e =>
            rw [process_one_send_error dpNum dpNL cy soup env maxSends st id m e h hf ht
              hlt hs]
            left; exact ⟨rfl, rfl⟩
          | ok u =>
            cases u
            rw [process_one_sent dpNum dpNL cy soup env maxSends st id m h hf ht hlt hs]
            right; exact ⟨rfl, rfl, hlt⟩

/-- Folded over any message list, the send counter stays below the cap
and `notified` grows exactly with it. -/
theorem foldl_notified_sent (dpNum dpNL : DPOracle) (cy : Int) (soup : SoupOracle)
    (env : CycleEnv) (maxSends : Nat) :
    ∀ (msgs : List String) (st : CycleState), st.sentCount ≤ maxSends →
      (List.foldl (process_one dpNum dpNL cy soup env maxSends) st msgs).sentCount
        ≤ maxSends
      ∧ (List.foldl (process_one dpNum dpNL cy soup env maxSends) st msgs).stats.notified
          + st.sentCount
        = st.stats.notified
          + (List.foldl (process_one dpNum dpNL cy soup env maxSends) st msgs).sentCount := by
  intro msgs
  induction msgs with
  | nil => intro st h; exact ⟨h, by simp⟩
  | cons a rest ih =>
    intro st h
    rcases process_one_counters dpNum dpNL cy soup env maxSends st a with
      ⟨hsent, hnot⟩ | ⟨hsent, hnot, hlt⟩
    · have hih := ih (process_one dpNum dpNL cy soup env maxSends st a) (by omega)
      rw [List.foldl_cons]
      constructor
      · exact hih.1
      · have h2 := hih.2
        omega
    · have hih := ih (process_one dpNum dpNL cy soup env maxSends st a) (by omega)
      rw [List.foldl_cons]
      constructor
      · exact hih.1
      · have h2 := hih.2
        omega

/-- Per-step statistics bounds: `checked` is untouched, `new + processed`
grows by at most one, `notified ≤ new` is preserved, and at most one
error is appended. -/
theorem process_one_stats_bounds (dpNum dpNL : DPOracle) (cy : Int) (soup : SoupOracle)
    (env : CycleEnv) (maxSends : Nat) (st : CycleState) (id : String) :
    (process_one dpNum dpNL cy soup env maxSends st id).stats.checked = st.stats.checked
    ∧ (process_one dpNum dpNL cy soup env maxSends st id).stats.new
        + (process_one dpNum dpNL cy soup env maxSends st id).stats.processed
      ≤ st.stats.new + st.stats.processed + 1
    ∧ (st.stats.notified ≤ st.stats.new →
        (process_one dpNum dpNL cy soup env maxSends st id).stats.notified
          ≤ (process_one dpNum dpNL cy soup env maxSends st id).stats.new)
    ∧ (process_one dpNum dpNL cy soup env maxSends st id).stats.errors.length
      ≤ st.stats.errors.length + 1 := by
  cases h : has_processed st.store id with
  | true =>
    rw [process_one_seen dpNum dpNL cy soup env maxSends st id h]
    exact ⟨rfl, by simp <;> omega, fun hn => by simp <;> omega, by simp <;> omega⟩
  | false =>
    cases hf : env.fetch id with
    | error e =>
      rw [process_one_fetch_error dpNum dpNL cy soup env maxSends st id e h hf]
      exact ⟨rfl, by simp <;> omega, fun hn => by simp <;> omega, by simp <;> omega⟩
    | ok m =>
      cases ht : (parse_message dpNum dpNL cy soup m).isTls with
      | false =>
        rw [process_one_nonmatch dpNum dpNL cy soup env maxSends st id m h hf ht]
        exact ⟨rfl, by simp <;> omega, fun hn => by simp <;> omega, by simp <;> omega⟩
      | true =>
        by_cases hcap : maxSends ≤ st.sentCount
        · rw [process_one_cap dpNum dpNL cy soup env maxSends st id m h hf ht hcap]
          exact ⟨rfl, by simp <;> omega, fun hn => by simp <;> omega, by simp <;> omega⟩
        · have hlt := Nat.not_le.mp hcap
          cases hs : env.send id with
          | error e =>
            rw [process_one_send_error dpNum dpNL cy soup env maxSends st id m e h hf ht
              hlt hs]
            exact ⟨rfl, by simp <;> omega, fun hn => by simp <;> omega, by simp <;> omega⟩
          | ok u =>
            cases u
            rw [process_one_sent dpNum dpNL cy soup env maxSends st id m h hf ht hlt hs]
            exact ⟨rfl, by simp <;> omega, fun hn => by simp <;> omega, by simp <;> omega⟩

/-- Folded statistics bounds over a whole message list. -/
theorem foldl_stats_bounds (dpNum dpNL : DPOracle) (cy : Int) (soup : SoupOracle)
    (env : CycleEnv) (maxSends : Nat) :
    ∀ (msgs : List String) (st : CycleState),
      (List.foldl (process_one dpNum dpNL cy soup env maxSends) st msgs).stats.checked
        = st.stats.checked
      ∧ (List.foldl (process_one dpNum dpNL cy soup env maxSends) st msgs).stats.new
          + (List.foldl (process_one dpNum dpNL cy soup env maxSends) st msgs).stats.processed
        ≤ st.stats.new + st.stats.processed + msgs.length
      ∧ (st.stats.notified ≤ st.stats.new →
          (List.foldl (process_one dpNum dpNL cy soup env maxSends) st msgs).stats.notified
            ≤ (List.foldl (process_one dpNum dpNL cy soup env maxSends) st msgs).stats.new)
      ∧ (List.foldl (process_one dpNum dpNL cy soup env maxSends) st msgs).stats.errors.length
        ≤ st.stats.errors.length + msgs.length := by
  intro msgs
  induction msgs with
  | nil => intro st; exact ⟨rfl, by simp, fun hn => hn, by simp⟩
  | cons a rest ih =>
    intro st
    have hstep := process_one_stats_bounds dpNum dpNL cy soup env maxSends st a
    have hih := ih (process_one dpNum dpNL cy soup env maxSends st a)
    rw [List.foldl_cons]
    refine ⟨hih.1.trans hstep.1, ?_, fun hn => hih.2.2.1 (hstep.2.2.1 hn), ?_⟩
    · have h1 := hih.2.1
      have h2 := hstep.2.1
      simp only [List.length_cons]
      omega
    · have h1 := hih.2.2.2
      have h2 := hstep.2.2.2
      simp only [List.length_cons]
      omega

/-! ## Claim C2 -/

/-- C2: an unseen matching message notified in one cycle is marked, and
any later cycle listing an id the store already holds finds it processed:
it only increments `processed`, sends nothing, and neither fetches nor
classifies (the whole second-cycle state is fixed whatever the oracles
and the environment do); in particular the unseen-then-seen scenario
yields `notified = 1` in cycle one and `notified = 0, processed = 1` in
cycle two. -/
theorem tls_C2_dedup_across_cycles (dpNum dpNL : DPOracle) (cy : Int) (soup : SoupOracle)
    (env : CycleEnv) (maxSends : Nat) (store0 : List String) (id : String)
    (m : RawMessage)
    (h0 : has_processed store0 id = false)
    (hf : env.fetch id = .ok m)
    (ht : (parse_message dpNum dpNL cy soup m).isTls = true)
    (hs : env.send id = .ok ())
    (hmax : 1 ≤ maxSends) :
    (run_poll_cycle dpNum dpNL cy soup env maxSends [id] store0).stats.notified = 1
    ∧ has_processed
        (run_poll_cycle dpNum dpNL cy soup env maxSends [id] store0).store id = true
    ∧ (∀ (store1 : List String), has_processed store1 id = true →
        ∀ (dpNum2 dpNL2 : DPOracle) (cy2 : Int) (soup2 : SoupOracle) (env2 : CycleEnv),
          run_poll_cycle dpNum2 dpNL2 cy2 soup2 env2 maxSends [id] store1
            = ⟨store1, 0, ⟨1, 0, 1, 0, []⟩⟩)
    ∧ (∀ (dpNum2 dpNL2 : DPOracle) (cy2 : Int) (soup2 : SoupOracle) (env2 : CycleEnv)
        (maxSends2 : Nat) (st : CycleState), has_processed st.store id = true →
        process_one dpNum2 dpNL2 cy2 soup2 env2 maxSends2 st id
          = { st with
                stats := { st.stats with processed := st.stats.processed + 1 } }) := by
  have hrun1 : run_poll_cycle dpNum dpNL cy soup env maxSends [id] store0
      = ⟨mark_processed store0 id, 1, ⟨1, 1, 0, 1, []⟩⟩ := by
    show List.foldl (process_one dpNum dpNL cy soup env maxSends)
        ⟨store0, 0, ⟨1, 0, 0, 0, []⟩⟩ [id] = _
    rw [List.foldl_cons, List.foldl_nil,
      process_one_sent dpNum dpNL cy soup env maxSends ⟨store0, 0, ⟨1, 0, 0, 0, []⟩⟩
        id m h0 hf ht hmax hs]
  refine ⟨by rw [hrun1], by rw [hrun1]; exact has_processed_mark store0 id, ?_, ?_⟩
  · intro store1 h1 dpNum2 dpNL2 cy2 soup2 env2
    show List.foldl (process_one dpNum2 dpNL2 cy2 soup2 env2 maxSends)
        ⟨store1, 0, ⟨1, 0, 0, 0, []⟩⟩ [id] = _
    rw [List.foldl_cons, List.foldl_nil,
      process_one_seen dpNum2 dpNL2 cy2 soup2 env2 maxSends
        ⟨store1, 0, ⟨1, 0, 0, 0, []⟩⟩ id h1]
  · intro dpNum2 dpNL2 cy2 soup2 env2 maxSends2 st hseen
    exact process_one_seen dpNum2 dpNL2 cy2 soup2 env2 maxSends2 st id hseen

/-- C2 witness: id `"w2"` is notified in cycle one from an empty store,
and a second cycle over the resulting store — under an environment whose
fetch and send both fail, so any fetch or send attempt would be visible —
reports `processed = 1, notified = 0` and leaves the store unchanged. -/
theorem tls_C2_dedup_across_cycles_witness :
    (run_poll_cycle (fun _ => none) (fun _ => none) 2026 (fun _ => none)
        ⟨fun _ => .ok ⟨"w2", "noreply@tlscontact.com", "Sub", "Sn", "Body", []⟩,
         fun _ => .ok ()⟩ 3 ["w2"] []).stats.notified = 1
    ∧ run_poll_cycle (fun _ => none) (fun _ => none) 2026 (fun _ => none)
        ⟨fun _ => .error "down", fun _ => .error "down"⟩ 3 ["w2"]
        (run_poll_cycle (fun _ => none) (fun _ => none) 2026 (fun _ => none)
          ⟨fun _ => .ok ⟨"w2", "noreply@tlscontact.com", "Sub", "Sn", "Body", []⟩,
           fun _ => .ok ()⟩ 3 ["w2"] []).store
      = ⟨(run_poll_cycle (fun _ => none) (fun _ => none) 2026 (fun _ => none)
            ⟨fun _ => .ok ⟨"w2", "noreply@tlscontact.com", "Sub", "Sn", "Body", []⟩,
             fun _ => .ok ()⟩ 3 ["w2"] []).store, 0, ⟨1, 0, 1, 0, []⟩⟩ := by
  have h := tls_C2_dedup_across_cycles (fun _ => none) (fun _ => none) 2026 (fun _ => none)
    ⟨fun _ => .ok ⟨"w2", "noreply@tlscontact.com", "Sub", "Sn", "Body", []⟩,
     fun _ => .ok ()⟩ 3 [] "w2"
    ⟨"w2", "noreply@tlscontact.com", "Sub", "Sn", "Body", []⟩
    rfl rfl (by decide) rfl (by decide)
  exact ⟨h.1, h.2.2.1 _ h.2.1 (fun _ => none) (fun _ => none) 2026 (fun _ => none)
    ⟨fun _ => .error "down", fun _ => .error "down"⟩⟩

/-! ## Claim C3 -/

/-- C3: within one cycle, `notified` never exceeds the configured
per-cycle send cap, and every matching unseen message handled once the
send counter has reached the cap is marked processed with no notification
(its step only increments `new` and marks the id). -/
theorem tls_C3_send_cap (dpNum dpNL : DPOracle) (cy : Int) (soup : SoupOracle)
    (env : CycleEnv) (maxSends : Nat) (msgs : List String) (store0 : List String) :
    (run_poll_cycle dpNum dpNL cy soup env maxSends msgs store0).stats.notified ≤ maxSends
    ∧ (∀ (st : CycleState) (id : String) (m : RawMessage),
        has_processed st.store id = false → env.fetch id = .ok m →
        (parse_message dpNum dpNL cy soup m).isTls = true →
        maxSends ≤ st.sentCount →
        process_one dpNum dpNL cy soup env maxSends st id
          = { st with
                store := mark_processed st.store id,
                stats := { st.stats with new := st.stats.new + 1 } }) := by
  constructor
  · have h := foldl_notified_sent dpNum dpNL cy soup env maxSends msgs
      ⟨store0, 0, ⟨msgs.length, 0, 0, 0, []⟩⟩ (Nat.zero_le maxSends)
    have h1 := h.1
    have h2 := h.2
    simp only [] at h2
    show (List.foldl (process_one dpNum dpNL cy soup env maxSends)
        ⟨store0, 0, ⟨msgs.length, 0, 0, 0, []⟩⟩ msgs).stats.notified ≤ maxSends
    omega
  · intro st id m h hf ht hcap
    exact process_one_cap dpNum dpNL cy soup env maxSends st id m h hf ht hcap

/-- C3 witness: with cap 1 and two listed matching messages, `notified`
stays at most 1; and a matching unseen message hitting a state whose send
counter equals the cap is marked without notification. -/
theorem tls_C3_send_cap_witness :
    (run_poll_cycle (fun _ => none) (fun _ => none) 2026 (fun _ => none)
        ⟨fun i => .ok ⟨i, "noreply@tlscontact.com", "Sub", "Sn", "Body", []⟩,
         fun _ => .ok ()⟩ 1 ["a", "b"] []).stats.notified ≤ 1
    ∧ process_one (fun _ => none) (fun _ => none) 2026 (fun _ => none)
        ⟨fun i => .ok ⟨i, "noreply@tlscontact.com", "Sub", "Sn", "Body", []⟩,
         fun _ => .ok ()⟩ 1 ⟨["a"], 1, ⟨2, 1, 0, 1, []⟩⟩ "b"
      = ⟨["b", "a"], 1, ⟨2, 2, 0, 1, []⟩⟩ := by
  have h := tls_C3_send_cap (fun _ => none) (fun _ => none) 2026 (fun _ => none)
    ⟨fun i => .ok ⟨i, "noreply@tlscontact.com", "Sub", "Sn", "Body", []⟩,
     fun _ => .ok ()⟩ 1 ["a", "b"] []
  exact ⟨h.1, h.2 ⟨["a"], 1, ⟨2, 1, 0, 1, []⟩⟩ "b"
    ⟨"b", "noreply@tlscontact.com", "Sub", "Sn", "Body", []⟩
    (by decide) rfl (by decide) (by decide)⟩

/-! ## Claim C4 -/

/-- C4: a fetch failure or a send failure while handling one message
appends `(messageId, error)` to the error list, leaves the id unmarked
(the store is unchanged, so it is retried next cycle), and the loop
continues with the remaining messages — one message's failure never
aborts the cycle. -/
theorem tls_C4_error_isolation (dpNum dpNL : DPOracle) (cy : Int) (soup : SoupOracle)
    (env : CycleEnv) (maxSends : Nat) :
    (∀ (st : CycleState) (id e : String),
        has_processed st.store id = false → env.fetch id = .error e →
        process_one dpNum dpNL cy soup env maxSends st id
          = { st with
                stats := { st.stats with
                  new := st.stats.new + 1,
                  errors := st.stats.errors ++ [(id, e)] } })
    ∧ (∀ (st : CycleState) (id : String) (m : RawMessage) (e : String),
        has_processed st.store id = false → env.fetch id = .ok m →
        (parse_message dpNum dpNL cy soup m).isTls = true →
        st.sentCount < maxSends → env.send id = .error e →
        process_one dpNum dpNL cy soup env maxSends st id
          = { st with
                stats := { st.stats with
                  new := st.stats.new + 1,
                  errors := st.stats.errors ++ [(id, e)] } })
    ∧ (∀ (st : CycleState) (id : String) (rest : List String),
        List.foldl (process_one dpNum dpNL cy soup env maxSends) st (id :: rest)
          = List.foldl (process_one dpNum dpNL cy soup env maxSends)
              (process_one dpNum dpNL cy soup env maxSends st id) rest) := by
  exact ⟨fun st id e h hf =>
      process_one_fetch_error dpNum dpNL cy soup env maxSends st id e h hf,
    fun st id m e h hf ht hcap hs =>
      process_one_send_error dpNum dpNL cy soup env maxSends st id m e h hf ht hcap hs,
    fun st id rest => rfl⟩

/-- C4 witness: a fetch failure and a send failure each record the error,
leave the store empty (unmarked), and the fold proceeds to the rest. -/
theorem tls_C4_error_isolation_witness :
    process_one (fun _ => none) (fun _ => none) 2026 (fun _ => none)
        ⟨fun _ => .error "boom", fun _ => .ok ()⟩ 3 ⟨[], 0, ⟨2, 0, 0, 0, []⟩⟩ "m1"
      = ⟨[], 0, ⟨2, 1, 0, 0, [("m1", "boom")]⟩⟩
    ∧ process_one (fun _ => none) (fun _ => none) 2026 (fun _ => none)
        ⟨fun _ => .ok ⟨"m2", "noreply@tlscontact.com", "Sub", "Sn", "Body", []⟩,
         fun _ => .error "sendfail"⟩ 3 ⟨[], 0, ⟨1, 0, 0, 0, []⟩⟩ "m2"
      = ⟨[], 0, ⟨1, 1, 0, 0, [("m2", "sendfail")]⟩⟩
    ∧ List.foldl (process_one (fun _ => none) (fun _ => none) 2026 (fun _ => none)
          ⟨fun _ => .error "boom", fun _ => .ok ()⟩ 3) ⟨[], 0, ⟨2, 0, 0, 0, []⟩⟩
          ["m1", "m3"]
      = List.foldl (process_one (fun _ => none) (fun _ => none) 2026 (fun _ => none)
          ⟨fun _ => .error "boom", fun _ => .ok ()⟩ 3)
          (process_one (fun _ => none) (fun _ => none) 2026 (fun _ => none)
            ⟨fun _ => .error "boom", fun _ => .ok ()⟩ 3 ⟨[], 0, ⟨2, 0, 0, 0, []⟩⟩ "m1")
          ["m3"] := by
  have h1 := tls_C4_error_isolation (fun _ => none) (fun _ => none) 2026 (fun _ => none)
    ⟨fun _ => .error "boom", fun _ => .ok ()⟩ 3
  have h2 := tls_C4_error_isolation (fun _ => none) (fun _ => none) 2026 (fun _ => none)
    ⟨fun _ => .ok ⟨"m2", "noreply@tlscontact.com", "Sub", "Sn", "Body", []⟩,
     fun _ => .error "sendfail"⟩ 3
  exact ⟨h1.1 ⟨[], 0, ⟨2, 0, 0, 0, []⟩⟩ "m1" "boom" rfl rfl,
    h2.2.1 ⟨[], 0, ⟨1, 0, 0, 0, []⟩⟩ "m2"
      ⟨"m2", "noreply@tlscontact.com", "Sub", "Sn", "Body", []⟩ "sendfail"
      rfl rfl (by decide) (by decide) rfl,
    h1.2.2 ⟨[], 0, ⟨2, 0, 0, 0, []⟩⟩ "m1" ["m3"]⟩

/-! ## Claim C10 -/

/-- C10: in every completed cycle, `checked` equals the number of listed
ids, `new + processed ≤ checked`, `notified ≤ new`, and the error list
holds at most `checked` entries. -/
theorem tls_C10_stats_invariants (dpNum dpNL : DPOracle) (cy : Int) (soup : SoupOracle)
    (env : CycleEnv) (maxSends : Nat) (msgs : List String) (store0 : List String) :
    (run_poll_cycle dpNum dpNL cy soup env maxSends msgs store0).stats.checked
      = msgs.length
    ∧ (run_poll_cycle dpNum dpNL cy soup env maxSends msgs store0).stats.new
        + (run_poll_cycle dpNum dpNL cy soup env maxSends msgs store0).stats.processed
      ≤ (run_poll_cycle dpNum dpNL cy soup env maxSends msgs store0).stats.checked
    ∧ (run_poll_cycle dpNum dpNL cy soup env maxSends msgs store0).stats.notified
      ≤ (run_poll_cycle dpNum dpNL cy soup env maxSends msgs store0).stats.new
    ∧ (run_poll_cycle dpNum dpNL cy soup env maxSends msgs store0).stats.errors.length
      ≤ (run_poll_cycle dpNum dpNL cy soup env maxSends msgs store0).stats.checked := by
  have h := foldl_stats_bounds dpNum dpNL cy soup env maxSends msgs
    ⟨store0, 0, ⟨msgs.length, 0, 0, 0, []⟩⟩
  have h1 := h.1
  have h2 := h.2.1
  have h3 := h.2.2.1 (by simp)
  have h4 := h.2.2.2
  simp at h1 h2 h4
  unfold run_poll_cycle
  refine ⟨h1, ?_, h3, ?_⟩ <;> omega

end TlsWatcher
